import Mathlib

/-!
Shallow embedding of the UltraOCR Python SDK (package `ultraocr`:
`functions.py`, `helpers.py`, `constants.py`, `exceptions.py`) and proofs
about its polling, authentication, upload and pagination logic.

Modelling conventions:
* Python exceptions become `Except` errors (`PyError`).
* Wall-clock time is a natural number.  `time.time()` reads the current
  clock without advancing it; network fetches and sleeps advance the clock
  by amounts drawn from an environment trace.  Two consecutive clock reads
  with no intervening work read the same value.
* Remote responses are drawn from environment functions indexed by the
  request number, so every possible server behaviour is a choice of
  environment.
* `while` loops are modelled with fuel; running out of fuel yields `none`
  and is never used to settle a claim.
-/

namespace UltraOCR

/-! ## constants.py -/

def STATUS_DONE : String := "done"

def STATUS_ERROR : String := "error"

def KEY_FACEMATCH : String := "facematch"

def KEY_EXTRA : String := "extra-document"

def FLAG_TRUE : String := "true"

/-! ## Data model (records the code reads fields from) -/

/-- A job result record as returned by `GET /ocr/job/result/...`; the polling
code only reads its `status` field. -/
structure JobRecord where
  status : String
deriving DecidableEq

/-- An entry of a batch record's `jobs` array; `wait_for_batch_done` reads
`job_ksuid`, the server also sends a per-job `status` the code ignores. -/
structure JobEntry where
  job_ksuid : String
  status : String
deriving DecidableEq

/-- A batch status record as returned by `GET /ocr/batch/status/...`. -/
structure BatchRecord where
  status : String
  jobs : List JobEntry
deriving DecidableEq

/-- `status in [STATUS_DONE, STATUS_ERROR]` (functions.py line 580 / 629). -/
def isTerminal (s : String) : Bool :=
  s == STATUS_DONE || s == STATUS_ERROR

/-! ## exceptions.py / helpers.validate_status_code -/

/-- Python exceptions raised by the embedded code paths.
`invalidStatusCode got want` is `InvalidStatusCodeException`;
`typeErr` is a built-in `TypeError`. -/
inductive PyError where
  | invalidStatusCode : Nat → Nat → PyError
  | typeErr : PyError
deriving DecidableEq

/-- helpers.validate_status_code: raise `InvalidStatusCodeException(status, want)`
when `status != want`. -/
def validate_status_code (status want : Nat) : Except PyError Unit :=
  if status ≠ want then Except.error (PyError.invalidStatusCode status want)
  else Except.ok ()

/-- Python `dict.update` accepts at most one positional argument; the calls
`body.update(key, value)` in `send_job_single_step` and
`params.update("nextPageToken", token)` in `get_jobs` pass two positional
arguments and therefore raise `TypeError` unconditionally. -/
def dict_update_two_positional {α β : Type} (_d : List (String × α))
    (_k : String) (_v : β) : Except PyError (List (String × α)) :=
  Except.error PyError.typeErr

/-! ## Client credential state and authentication -/

/-- The mutable fields of `Client` that the credential logic touches
(`client_id`, `client_secret`, `expires`, `auto_refresh`, `expires_at`,
`token`; `__init__` lines 76-85). -/
structure ClientState where
  client_id : String
  client_secret : String
  expires : Nat
  auto_refresh : Bool
  expires_at : Nat
  token : String
deriving DecidableEq

/-- Response of `POST {auth_base_url}/token`: an HTTP status and the body's
`token` field. -/
structure TokenResp where
  status_code : Nat
  token : String
deriving DecidableEq

/-- The JSON body `{"ClientID", "ClientSecret", "ExpiresIn"}` sent to the
token endpoint (functions.py lines 150-154). -/
structure TokenRequest where
  ClientID : String
  ClientSecret : String
  ExpiresIn : Nat
deriving DecidableEq

/-- `timedelta(minutes=expires)` measured in seconds. -/
def timedelta_minutes (m : Nat) : Nat := 60 * m

/-- Client.authenticate (functions.py lines 134-160): POST the credentials to
the token endpoint (response given by `resp`, `datetime.now()` by `now`),
validate the status is 200, then store the token and
`expires_at = now + timedelta(minutes=expires)`.  Returns the request body
that was sent together with the outcome. -/
def authenticate (resp : TokenResp) (now : Nat) (st : ClientState)
    (client_id client_secret : String) (expires : Nat) :
    TokenRequest × Except PyError ClientState :=
  (⟨client_id, client_secret, expires⟩,
    match validate_status_code resp.status_code 200 with
    | Except.error e => Except.error e
    | Except.ok _ =>
        Except.ok { st with
          token := resp.token
          expires_at := now + timedelta_minutes expires })

/-- Client._auto_authenticate (functions.py lines 122-124): if `auto_refresh`
and `datetime.now() > expires_at`, call `authenticate` with the stored
client id, secret and expiry minutes.  Returns the token requests issued
(none or one) and the resulting state. -/
def auto_authenticate (resp : TokenResp) (now : Nat) (st : ClientState) :
    List TokenRequest × Except PyError ClientState :=
  if st.auto_refresh = true ∧ st.expires_at < now then
    ((authenticate resp now st st.client_id st.client_secret st.expires).1 ::
        [],
      (authenticate resp now st st.client_id st.client_secret st.expires).2)
  else ([], Except.ok st)

/-- Client._get (functions.py lines 107-120): `_auto_authenticate` first, then
perform the request with `BearerAuth(self.token)`.  Returns the token
requests issued and, on success, the state after the wrapper together with
the bearer token attached to the outgoing request. -/
def client_get (resp : TokenResp) (now : Nat) (st : ClientState) :
    List TokenRequest × Except PyError (ClientState × String) :=
  match auto_authenticate resp now st with
  | (reqs, Except.error e) => (reqs, Except.error e)
  | (reqs, Except.ok st2) => (reqs, Except.ok (st2, st2.token))

/-- Client._post (functions.py lines 90-105): same wrapper shape as `_get`. -/
def client_post (resp : TokenResp) (now : Nat) (st : ClientState) :
    List TokenRequest × Except PyError (ClientState × String) :=
  match auto_authenticate resp now st with
  | (reqs, Except.error e) => (reqs, Except.error e)
  | (reqs, Except.ok st2) => (reqs, Except.ok (st2, st2.token))

/-! ## Polling engine: wait_for_job_done -/

/-- Environment of one job wait: the k-th `get_job_result` call returns
`resp k` and takes `fetchDur k` time; the k-th `time.sleep(self.interval)`
takes `interval + sleepSlack k` time. -/
structure JobPollEnv where
  resp : Nat → JobRecord
  fetchDur : Nat → Nat
  sleepSlack : Nat → Nat

/-- Outcome of `wait_for_job_done`: either a raised
`TimeoutException(self.timeout, res)` or a normal `return res`. -/
inductive JobWait where
  | timeoutExc : Nat → Option JobRecord → JobWait
  | ret : Option JobRecord → JobWait
deriving DecidableEq

/-- The while loop of Client.wait_for_job_done (functions.py lines 576-583).
Arguments after the deadline: fuel, the fetch counter `k`, the current clock,
and the running `res`.  Returns the clock at loop exit, the final `res` and
the number of fetches performed; `none` when fuel runs out. -/
def waitJobLoop (env : JobPollEnv) (interval deadline : Nat) :
    Nat → Nat → Nat → Option JobRecord → Option (Nat × Option JobRecord × Nat)
  | 0, _, _, _ => none
  | fuel + 1, k, clock, res =>
    if clock < deadline then
      if isTerminal (env.resp k).status then
        some (clock + env.fetchDur k, some (env.resp k), k + 1)
      else
        waitJobLoop env interval deadline fuel (k + 1)
          (clock + env.fetchDur k + interval + env.sleepSlack k)
          (some (env.resp k))
    else some (clock, res, k)

/-- Client.wait_for_job_done (functions.py lines 573-588): run the loop with
deadline `timeout_start + self.timeout`, then raise
`TimeoutException(self.timeout, res)` when the clock reads strictly past the
deadline, otherwise `return res`.  Result: outcome, clock at the final time
reading, number of fetches. -/
def wait_for_job_done (env : JobPollEnv) (interval timeout start fuel : Nat) :
    Option (JobWait × Nat × Nat) :=
  match waitJobLoop env interval (start + timeout) fuel 0 start none with
  | none => none
  | some (clock, res, k) =>
    if start + timeout < clock then
      some (JobWait.timeoutExc timeout res, clock, k)
    else some (JobWait.ret res, clock, k)

/-- Clock value at the m-th loop-condition check of `wait_for_job_done`,
assuming the first m fetched records were all non-terminal. -/
def clockAt (env : JobPollEnv) (interval start : Nat) : Nat → Nat
  | 0 => start
  | m + 1 =>
    clockAt env interval start m + env.fetchDur m + interval + env.sleepSlack m

/-! ## Polling engine: wait_for_batch_done -/

/-- Environment of one batch wait: batch-status responses and durations as in
`JobPollEnv`, plus a fresh job-wait environment for the i-th child wait. -/
structure BatchPollEnv where
  bresp : Nat → BatchRecord
  bfetchDur : Nat → Nat
  bsleepSlack : Nat → Nat
  jobEnv : Nat → JobPollEnv

/-- Outcome of `wait_for_batch_done`: a batch-level `TimeoutException`, a
`TimeoutException` propagated from a child `wait_for_job_done`, the
`TypeError` from subscripting `None` (`res["jobs"]` when no fetch happened),
or a normal `return res`. -/
inductive BatchWait where
  | timeoutExc : Nat → Option BatchRecord → BatchWait
  | jobTimeoutExc : Nat → Option JobRecord → BatchWait
  | typeErr : BatchWait
  | ret : Option BatchRecord → BatchWait
deriving DecidableEq

/-- The while loop of Client.wait_for_batch_done (functions.py lines 625-632);
same shape as `waitJobLoop` with `get_batch_status` as the fetch. -/
def waitBatchLoop (benv : BatchPollEnv) (interval deadline : Nat) :
    Nat → Nat → Nat → Option BatchRecord →
    Option (Nat × Option BatchRecord × Nat)
  | 0, _, _, _ => none
  | fuel + 1, k, clock, res =>
    if clock < deadline then
      if isTerminal (benv.bresp k).status then
        some (clock + benv.bfetchDur k, some (benv.bresp k), k + 1)
      else
        waitBatchLoop benv interval deadline fuel (k + 1)
          (clock + benv.bfetchDur k + interval + benv.bsleepSlack k)
          (some (benv.bresp k))
    else some (clock, res, k)

/-- The `for job in res["jobs"]` loop of Client.wait_for_batch_done
(functions.py lines 637-640): run `wait_for_job_done` for each entry in
order, threading the clock; the i-th child wait draws from `benv.jobEnv i`
and a child `TimeoutException` propagates immediately.  Returns the end
clock, the total number of child job fetches, the `job_ksuid`s waited on in
order, and the propagated timeout payload if any. -/
def waitJobsLoop (benv : BatchPollEnv) (interval timeout fuel : Nat) :
    List JobEntry → Nat → Nat →
    Option (Nat × Nat × List String × Option (Nat × Option JobRecord))
  | [], _, clock => some (clock, 0, [], none)
  | job :: rest, i, clock =>
    match wait_for_job_done (benv.jobEnv i) interval timeout clock fuel with
    | none => none
    | some (JobWait.timeoutExc t last, c2, k) =>
        some (c2, k, [job.job_ksuid], some (t, last))
    | some (JobWait.ret _, c2, k) =>
        match waitJobsLoop benv interval timeout fuel rest (i + 1) c2 with
        | none => none
        | some (c3, k2, ids, exc) => some (c3, k + k2, job.job_ksuid :: ids, exc)

/-- Client.wait_for_batch_done (functions.py lines 590-642): batch polling
loop, post-loop deadline check, then (if `wait_jobs`) one `wait_for_job_done`
per entry of `res["jobs"]`, finally `return res`.  Result: outcome, final
clock, number of batch fetches, number of child job fetches, and the child
job ids waited on in order. -/
def wait_for_batch_done (benv : BatchPollEnv)
    (interval timeout start fuel : Nat) (wait_jobs : Bool) :
    Option (BatchWait × Nat × Nat × Nat × List String) :=
  match waitBatchLoop benv interval (start + timeout) fuel 0 start none with
  | none => none
  | some (clock, res, kb) =>
    if start + timeout < clock then
      some (BatchWait.timeoutExc timeout res, clock, kb, 0, [])
    else if wait_jobs then
      match res with
      | none => some (BatchWait.typeErr, clock, kb, 0, [])
      | some r =>
        match waitJobsLoop benv interval timeout fuel r.jobs 0 clock with
        | none => none
        | some (c2, kj, ids, some (t, last)) =>
            some (BatchWait.jobTimeoutExc t last, c2, kb, kj, ids)
        | some (c2, kj, ids, none) =>
            some (BatchWait.ret (some r), c2, kb, kj, ids)
    else some (BatchWait.ret res, clock, kb, 0, [])

/-! ## Query-parameter flags -/

/-- `params and params.get(key) == FLAG_TRUE` (functions.py lines 246, 249,
299, 303): `params` is `None` or an association list; `None` and the empty
dict are falsy. -/
def paramsFlag (params : Option (List (String × String))) (key : String) :
    Bool :=
  match params with
  | none => false
  | some l => !l.isEmpty && (l.lookup key == some FLAG_TRUE)

/-! ## Upload pipeline: send_job -/

/-- The fields of the signed-url response that `send_job` reads: HTTP status,
`id`, `status_url` and the `urls` mapping (slot name to upload url). -/
structure SignedUrlResp where
  status_code : Nat
  id : String
  status_url : String
  urls : String → String

/-- Environment of one `send_job` call: the signed-url response and the HTTP
status returned by the PUT to each upload url. -/
structure SendJobEnv where
  signedResp : SignedUrlResp
  uploadStatus : String → Nat

/-- HTTP requests observable in a `send_job` run. -/
inductive HttpAction where
  | post : String → HttpAction
  | put : String → HttpAction
  | get : String → HttpAction
deriving DecidableEq

/-- The `job_data` dict returned by `send_job` (functions.py lines 291-294). -/
structure JobData where
  id : String
  status_url : String
deriving DecidableEq

/-- helpers.upload_file_with_path (helpers.py lines 38-54): PUT to the url and
validate the response status equals 200. -/
def upload_file_with_path (env : SendJobEnv) (url : String) :
    Except PyError Unit :=
  validate_status_code (env.uploadStatus url) 200

/-- Url of the signed-url POST issued by `send_job` via `generate_signed_url`
with `Resource.JOB` (functions.py line 197). -/
def jobPostUrl (base_url service : String) : String :=
  base_url ++ "/ocr/job/" ++ service

/-- Client.send_job (functions.py lines 257-307): signed-url request validated
to 200, then upload the document, then the selfie when the `facematch` query
parameter is `"true"`, then the extra document when `extra-document` is
`"true"`, each upload validated to 200.  Returns the HTTP actions performed
in order and the outcome. -/
def send_job (env : SendJobEnv) (base_url service : String)
    (params : Option (List (String × String))) :
    List HttpAction × Except PyError JobData :=
  match validate_status_code env.signedResp.status_code 200 with
  | Except.error e => ([HttpAction.post (jobPostUrl base_url service)],
      Except.error e)
  | Except.ok _ =>
    match upload_file_with_path env (env.signedResp.urls "document") with
    | Except.error e =>
        ([HttpAction.post (jobPostUrl base_url service),
          HttpAction.put (env.signedResp.urls "document")], Except.error e)
    | Except.ok _ =>
      match
        (if paramsFlag params KEY_FACEMATCH then
          ([HttpAction.put (env.signedResp.urls "selfie")],
            upload_file_with_path env (env.signedResp.urls "selfie"))
        else ([], Except.ok ())) with
      | (tf, Except.error e) =>
          ([HttpAction.post (jobPostUrl base_url service),
            HttpAction.put (env.signedResp.urls "document")] ++ tf,
            Except.error e)
      | (tf, Except.ok _) =>
        match
          (if paramsFlag params KEY_EXTRA then
            ([HttpAction.put (env.signedResp.urls "extra_document")],
              upload_file_with_path env (env.signedResp.urls "extra_document"))
          else ([], Except.ok ())) with
        | (te, Except.error e) =>
            ([HttpAction.post (jobPostUrl base_url service),
              HttpAction.put (env.signedResp.urls "document")] ++ tf ++ te,
              Except.error e)
        | (te, Except.ok _) =>
            ([HttpAction.post (jobPostUrl base_url service),
              HttpAction.put (env.signedResp.urls "document")] ++ tf ++ te,
              Except.ok ⟨env.signedResp.id, env.signedResp.status_url⟩)

/-- The upload slots `send_job` is asked to fill, in declaration order:
document, then selfie when the facematch flag is set, then extra document
when the extra-document flag is set. -/
def plannedUploads (env : SendJobEnv)
    (params : Option (List (String × String))) : List String :=
  env.signedResp.urls "document" ::
    ((if paramsFlag params KEY_FACEMATCH then [env.signedResp.urls "selfie"]
      else []) ++
      (if paramsFlag params KEY_EXTRA then
        [env.signedResp.urls "extra_document"]
      else []))

/-- Modelled from the spec (upload discipline the claim describes): the urls
actually PUT when slots are uploaded one at a time in order, stopping right
after the first upload whose status is not 200. -/
def uploadsUntilFail (env : SendJobEnv) : List String → List String
  | [] => []
  | u :: rest =>
    if env.uploadStatus u = 200 then u :: uploadsUntilFail env rest
    else [u]

/-- Modelled from the spec (upload discipline the claim describes): outcome of
uploading the slots in order with fail-fast 200 validation. -/
def uploadsOutcome (env : SendJobEnv) : List String → Except PyError Unit
  | [] => Except.ok ()
  | u :: rest =>
    if env.uploadStatus u = 200 then uploadsOutcome env rest
    else Except.error (PyError.invalidStatusCode (env.uploadStatus u) 200)

/-! ## send_job_single_step -/

/-- Response fields of `POST {base}/ocr/job/send/{service}` that the code
reads. -/
structure SingleStepResp where
  status_code : Nat
  id : String
  status_url : String
deriving DecidableEq

/-- Client.send_job_single_step (functions.py lines 204-255): build the body
`{"metadata": metadata, "data": file}`; when the facematch flag is set the
code runs `body.update(KEY_FACEMATCH, facematch_file)` and when the
extra-document flag is set it runs `body.update("extra", extra_file)` - both
calls pass two positional arguments to `dict.update`.  If no `TypeError` was
raised, POST the body and validate 200.  Returns the body actually sent and
the response data. -/
def send_job_single_step (resp : SingleStepResp)
    (metadata file facematch_file extra_file : String)
    (params : Option (List (String × String))) :
    Except PyError (List (String × String) × JobData) :=
  match
    (if paramsFlag params KEY_FACEMATCH then
      dict_update_two_positional [("metadata", metadata), ("data", file)]
        KEY_FACEMATCH facematch_file
    else Except.ok [("metadata", metadata), ("data", file)]) with
  | Except.error e => Except.error e
  | Except.ok body1 =>
    match
      (if paramsFlag params KEY_EXTRA then
        dict_update_two_positional body1 "extra" extra_file
      else Except.ok body1) with
    | Except.error e => Except.error e
    | Except.ok body2 =>
      match validate_status_code resp.status_code 200 with
      | Except.error e => Except.error e
      | Except.ok _ => Except.ok (body2, ⟨resp.id, resp.status_url⟩)

/-! ## get_jobs -/

/-- One page of `GET {base}/ocr/job/results`: the `jobs` array (jobs modelled
abstractly as strings) and the `nextPageToken` field. -/
structure PageResp where
  jobs : List String
  nextPageToken : Option String
deriving DecidableEq

/-- Client.get_jobs (functions.py lines 644-689): the `while has_next_page`
loop.  Each iteration fetches page `p`, appends `res.get("jobs")`, reads the
token, then runs `params.update("nextPageToken", token)` - two positional
arguments - and would clear `has_next_page` on a falsy token.  Returns the
number of page fetches performed and the outcome. -/
def getJobsLoop (page : Nat → PageResp) :
    Nat → Nat → List String → Option (Nat × Except PyError (List String))
  | 0, _, _ => none
  | fuel + 1, p, acc =>
    match
      dict_update_two_positional [("startDate", ""), ("endtDate", "")]
        "nextPageToken" (page p).nextPageToken with
    | Except.error e => some (p + 1, Except.error e)
    | Except.ok _ =>
      if (page p).nextPageToken = none ∨ (page p).nextPageToken = some "" then
        some (p + 1, Except.ok (acc ++ (page p).jobs))
      else getJobsLoop page fuel (p + 1) (acc ++ (page p).jobs)

/-- Client.get_jobs entry point: start with no jobs accumulated at page 0. -/
def get_jobs (page : Nat → PageResp) (fuel : Nat) :
    Option (Nat × Except PyError (List String)) :=
  getJobsLoop page fuel 0 []

/-! ## Concrete environments used by witnesses and counterexamples -/

/-- Every fetch returns a non-terminal record and takes one time unit. -/
def envProcessing : JobPollEnv :=
  ⟨fun _ => ⟨"processing"⟩, fun _ => 1, fun _ => 0⟩

/-- Every fetch returns a terminal record but takes six time units. -/
def envSlowDone : JobPollEnv :=
  ⟨fun _ => ⟨STATUS_DONE⟩, fun _ => 6, fun _ => 0⟩

/-- Every fetch returns a terminal record instantly. -/
def envFastDone : JobPollEnv :=
  ⟨fun _ => ⟨STATUS_DONE⟩, fun _ => 0, fun _ => 0⟩

/-- Every fetch returns a non-terminal record and takes ten time units. -/
def envSlowProcessing : JobPollEnv :=
  ⟨fun _ => ⟨"processing"⟩, fun _ => 10, fun _ => 0⟩

/-- Batch terminal at once, one child job listed as still processing; the
child's own wait observes a terminal record instantly. -/
def envBatchDemo : BatchPollEnv :=
  ⟨fun _ => ⟨STATUS_DONE, [⟨"a", "processing"⟩]⟩, fun _ => 0, fun _ => 0,
    fun _ => envFastDone⟩

/-- Batch terminal at once with one child whose own wait never sees a
terminal record. -/
def envBatchChildStuck : BatchPollEnv :=
  ⟨fun _ => ⟨STATUS_DONE, [⟨"a", "processing"⟩, ⟨"b", "waiting"⟩]⟩,
    fun _ => 0, fun _ => 0, fun _ => envSlowProcessing⟩

/-- A send_job environment whose selfie upload fails with 401. -/
def envSendSelfie401 : SendJobEnv :=
  ⟨⟨200, "id1", "surl", fun s => s⟩,
    fun u => if u = "selfie" then 401 else 200⟩

end UltraOCR

namespace UltraOCR

/-! ## Theorems about authentication (claims C5, C6) -/

/-- C5: `authenticate` fails with the invalid-status exception carrying the
received and expected codes exactly when the token endpoint answers with a
non-200 status; on a 200 answer it succeeds and stores the body's token and
`expires_at = now + expires` minutes. -/
theorem authenticate_status (resp : TokenResp) (now : Nat) (st : ClientState)
    (cid cs : String) (e : Nat) :
    ((authenticate resp now st cid cs e).2 =
        Except.error (PyError.invalidStatusCode resp.status_code 200) ↔
      resp.status_code ≠ 200) ∧
    (resp.status_code = 200 →
      (authenticate resp now st cid cs e).2 =
        Except.ok { st with
          token := resp.token
          expires_at := now + timedelta_minutes e }) := by
  constructor
  · constructor
    · intro h hc
      simp [authenticate, validate_status_code, hc] at h
    · intro hne
      simp [authenticate, validate_status_code, hne]
  · intro hc
    simp [authenticate, validate_status_code, hc]

/-- Witness for `authenticate_status` at a concrete 200 response. -/
theorem authenticate_status_witness :
    (200 : Nat) = 200 ∧
    (authenticate ⟨200, "abc"⟩ 7 ⟨"123", "321", 60, false, 0, ""⟩
        "123" "321" 60).2 =
      Except.ok { (⟨"123", "321", 60, false, 0, ""⟩ : ClientState) with
        token := "abc"
        expires_at := 7 + timedelta_minutes 60 } :=
  ⟨rfl, (authenticate_status ⟨200, "abc"⟩ 7 ⟨"123", "321", 60, false, 0, ""⟩
            "123" "321" 60).2 rfl⟩

/-- C6: the transport wrappers re-authenticate with the stored credentials
exactly when auto-refresh is on and the current time is past `expires_at`;
in that case the issued token request carries the stored id, secret and
expiry minutes and the request uses the refreshed token.  Otherwise no
token request is issued and the credential state is unchanged. -/
theorem transport_auto_refresh (resp : TokenResp) (now : Nat)
    (st : ClientState) :
    (st.auto_refresh = true ∧ st.expires_at < now →
      client_get resp now st =
        (⟨st.client_id, st.client_secret, st.expires⟩ :: [],
          match (authenticate resp now st st.client_id st.client_secret
              st.expires).2 with
          | Except.error e => Except.error e
          | Except.ok st2 => Except.ok (st2, st2.token)) ∧
      client_post resp now st =
        (⟨st.client_id, st.client_secret, st.expires⟩ :: [],
          match (authenticate resp now st st.client_id st.client_secret
              st.expires).2 with
          | Except.error e => Except.error e
          | Except.ok st2 => Except.ok (st2, st2.token))) ∧
    (¬ (st.auto_refresh = true ∧ st.expires_at < now) →
      client_get resp now st = ([], Except.ok (st, st.token)) ∧
      client_post resp now st = ([], Except.ok (st, st.token))) := by
  constructor
  · intro h
    constructor
    · simp only [client_get, auto_authenticate, if_pos h, authenticate]
      cases validate_status_code resp.status_code 200 <;> rfl
    · simp only [client_post, auto_authenticate, if_pos h, authenticate]
      cases validate_status_code resp.status_code 200 <;> rfl
  · intro h
    constructor
    · simp only [client_get, auto_authenticate, if_neg h]
    · simp only [client_post, auto_authenticate, if_neg h]

/-- Witness for `transport_auto_refresh`: with auto-refresh off, a GET leaves
the credential untouched and issues no token request. -/
theorem transport_auto_refresh_witness :
    (¬ ((⟨"a", "b", 60, false, 0, "tok"⟩ : ClientState).auto_refresh = true ∧
        (⟨"a", "b", 60, false, 0, "tok"⟩ : ClientState).expires_at < 5)) ∧
    client_get ⟨200, "t2"⟩ 5 ⟨"a", "b", 60, false, 0, "tok"⟩ =
      ([], Except.ok (⟨"a", "b", 60, false, 0, "tok"⟩, "tok")) :=
  ⟨by decide,
    ((transport_auto_refresh ⟨200, "t2"⟩ 5
        ⟨"a", "b", 60, false, 0, "tok"⟩).2 (by decide)).1⟩

/-! ## Lemmas about the job polling loop -/

/-- A completed `waitJobLoop` run either broke on a terminal record or left
because the clock had reached the deadline at the final condition check. -/
theorem waitJobLoop_exit (env : JobPollEnv) (interval deadline : Nat) :
    ∀ fuel k0 c0 r0 c r k,
      waitJobLoop env interval deadline fuel k0 c0 r0 = some (c, r, k) →
      (∃ rec, r = some rec ∧ isTerminal rec.status = true) ∨ deadline ≤ c := by
  intro fuel
  induction fuel with
  | zero =>
    intro k0 c0 r0 c r k h
    simp [waitJobLoop] at h
  | succ fuel ih =>
    intro k0 c0 r0 c r k h
    simp only [waitJobLoop] at h
    by_cases h1 : c0 < deadline
    · rw [if_pos h1] at h
      by_cases h2 : isTerminal (env.resp k0).status = true
      · rw [if_pos h2] at h
        simp only [Option.some.injEq, Prod.mk.injEq] at h
        exact Or.inl ⟨env.resp k0, h.2.1.symm, h2⟩
      · rw [if_neg h2] at h
        exact ih _ _ _ _ _ _ h
    · rw [if_neg h1] at h
      simp only [Option.some.injEq, Prod.mk.injEq] at h
      obtain ⟨hc, _, _⟩ := h
      exact Or.inr (by omega)

/-- Along a `waitJobLoop` run, the carried `res` is always the most recently
fetched record (or `none` before the first fetch). -/
theorem waitJobLoop_last (env : JobPollEnv) (interval deadline : Nat) :
    ∀ fuel k0 c0 r0 c r k,
      waitJobLoop env interval deadline fuel k0 c0 r0 = some (c, r, k) →
      r0 = (if k0 = 0 then none else some (env.resp (k0 - 1))) →
      r = (if k = 0 then none else some (env.resp (k - 1))) := by
  intro fuel
  induction fuel with
  | zero =>
    intro k0 c0 r0 c r k h _
    simp [waitJobLoop] at h
  | succ fuel ih =>
    intro k0 c0 r0 c r k h hinv
    simp only [waitJobLoop] at h
    by_cases h1 : c0 < deadline
    · rw [if_pos h1] at h
      by_cases h2 : isTerminal (env.resp k0).status = true
      · rw [if_pos h2] at h
        simp only [Option.some.injEq, Prod.mk.injEq] at h
        obtain ⟨_, hr, hk⟩ := h
        subst hk
        rw [← hr]
        simp
      · rw [if_neg h2] at h
        exact ih _ _ _ _ _ _ h (by simp)
    · rw [if_neg h1] at h
      simp only [Option.some.injEq, Prod.mk.injEq] at h
      obtain ⟨_, hr, hk⟩ := h
      subst hk
      subst hr
      exact hinv

/-- `clockAt` is monotone in the number of checks. -/
theorem clockAt_mono (env : JobPollEnv) (interval start : Nat)
    (m n : Nat) (h : m ≤ n) :
    clockAt env interval start m ≤ clockAt env interval start n := by
  induction h with
  | refl => exact le_rfl
  | step h ih =>
    refine le_trans ih ?_
    simp only [clockAt]
    omega

/-- Deterministic run of the job polling loop up to the first terminal fetch:
if the first i fetches are non-terminal, the i-th is terminal, and the clock
is still below the deadline at the i-th check, the loop performs exactly
i + 1 fetches and breaks with that record. -/
theorem waitJobLoop_run (env : JobPollEnv) (interval start deadline i : Nat)
    (hterm : isTerminal (env.resp i).status = true)
    (hpre : ∀ j, j < i → isTerminal (env.resp j).status = false)
    (hclock : clockAt env interval start i < deadline) :
    ∀ fuel m r0, m ≤ i → i - m < fuel →
      waitJobLoop env interval deadline fuel m
          (clockAt env interval start m) r0 =
        some (clockAt env interval start i + env.fetchDur i,
          some (env.resp i), i + 1) := by
  intro fuel
  induction fuel with
  | zero =>
    intro m r0 hm hf
    omega
  | succ fuel ih =>
    intro m r0 hm hf
    have hcm : clockAt env interval start m < deadline :=
      lt_of_le_of_lt (clockAt_mono env interval start m i hm) hclock
    simp only [waitJobLoop]
    rw [if_pos hcm]
    rcases Nat.lt_or_ge m i with hmi | hge
    · rw [if_neg (by simp [hpre m hmi])]
      have hstep : clockAt env interval start m + env.fetchDur m + interval +
          env.sleepSlack m = clockAt env interval start (m + 1) := rfl
      rw [hstep]
      exact ih (m + 1) (some (env.resp m)) hmi (by omega)
    · have hmi : m = i := le_antisymm hm hge
      subst hmi
      rw [if_pos hterm]

/-- `waitBatchLoop` analogue of `waitJobLoop_exit`. -/
theorem waitBatchLoop_exit (benv : BatchPollEnv) (interval deadline : Nat) :
    ∀ fuel k0 c0 r0 c r k,
      waitBatchLoop benv interval deadline fuel k0 c0 r0 = some (c, r, k) →
      (∃ rec, r = some rec ∧ isTerminal rec.status = true) ∨ deadline ≤ c := by
  intro fuel
  induction fuel with
  | zero =>
    intro k0 c0 r0 c r k h
    simp [waitBatchLoop] at h
  | succ fuel ih =>
    intro k0 c0 r0 c r k h
    simp only [waitBatchLoop] at h
    by_cases h1 : c0 < deadline
    · rw [if_pos h1] at h
      by_cases h2 : isTerminal (benv.bresp k0).status = true
      · rw [if_pos h2] at h
        simp only [Option.some.injEq, Prod.mk.injEq] at h
        exact Or.inl ⟨benv.bresp k0, h.2.1.symm, h2⟩
      · rw [if_neg h2] at h
        exact ih _ _ _ _ _ _ h
    · rw [if_neg h1] at h
      simp only [Option.some.injEq, Prod.mk.injEq] at h
      obtain ⟨hc, _, _⟩ := h
      exact Or.inr (by omega)

/-- `waitBatchLoop` analogue of `waitJobLoop_last`. -/
theorem waitBatchLoop_last (benv : BatchPollEnv) (interval deadline : Nat) :
    ∀ fuel k0 c0 r0 c r k,
      waitBatchLoop benv interval deadline fuel k0 c0 r0 = some (c, r, k) →
      r0 = (if k0 = 0 then none else some (benv.bresp (k0 - 1))) →
      r = (if k = 0 then none else some (benv.bresp (k - 1))) := by
  intro fuel
  induction fuel with
  | zero =>
    intro k0 c0 r0 c r k h _
    simp [waitBatchLoop] at h
  | succ fuel ih =>
    intro k0 c0 r0 c r k h hinv
    simp only [waitBatchLoop] at h
    by_cases h1 : c0 < deadline
    · rw [if_pos h1] at h
      by_cases h2 : isTerminal (benv.bresp k0).status = true
      · rw [if_pos h2] at h
        simp only [Option.some.injEq, Prod.mk.injEq] at h
        obtain ⟨_, hr, hk⟩ := h
        subst hk
        rw [← hr]
        simp
      · rw [if_neg h2] at h
        exact ih _ _ _ _ _ _ h (by simp)
    · rw [if_neg h1] at h
      simp only [Option.some.injEq, Prod.mk.injEq] at h
      obtain ⟨_, hr, hk⟩ := h
      subst hk
      subst hr
      exact hinv

/-- The `wait_for_job_done` half of claim C1, proved on its own. -/
theorem wait_job_outcome_at_deadline (env : JobPollEnv)
    (interval timeout start fuel : Nat) (out : JobWait) (c k : Nat)
    (h : wait_for_job_done env interval timeout start fuel =
      some (out, c, k)) :
    (start + timeout < c →
      out = JobWait.timeoutExc timeout
        (if k = 0 then none else some (env.resp (k - 1)))) ∧
    (∀ r, out = JobWait.ret r →
      c ≤ start + timeout ∧
      ((∃ rec, r = some rec ∧ isTerminal rec.status = true) ∨
        c = start + timeout)) := by
  cases hl : waitJobLoop env interval (start + timeout) fuel 0 start none with
  | none =>
    simp only [wait_for_job_done, hl] at h
    exact Option.noConfusion h
  | some v =>
    obtain ⟨cl, rl, kl⟩ := v
    simp only [wait_for_job_done, hl] at h
    by_cases hc : start + timeout < cl
    · rw [if_pos hc] at h
      simp only [Option.some.injEq, Prod.mk.injEq] at h
      obtain ⟨ho, hcc, hkk⟩ := h
      subst hcc
      subst hkk
      constructor
      · intro _
        have hlast := waitJobLoop_last env interval (start + timeout) fuel
          0 start none cl rl kl hl (by simp)
        rw [← ho, hlast]
      · intro r hr
        rw [← ho] at hr
        simp at hr
    · rw [if_neg hc] at h
      simp only [Option.some.injEq, Prod.mk.injEq] at h
      obtain ⟨ho, hcc, hkk⟩ := h
      subst hcc
      subst hkk
      constructor
      · intro hlt
        exact absurd hlt (by omega)
      · intro r hr
        rw [← ho] at hr
        injection hr with hrr
        subst hrr
        refine ⟨by omega, ?_⟩
        rcases waitJobLoop_exit env interval (start + timeout) fuel
            0 start none cl rl kl hl with hterm | hge
        · exact Or.inl hterm
        · exact Or.inr (by omega)

/-! ## Claim C1 -/

/-- C1 (amended): a completed run of either wait operation raises
`TimeoutException` - carrying the configured timeout and the last fetched
record, which is `None` exactly when no fetch happened - precisely when the
clock reading at the post-loop check is strictly past `start + timeout`; a
normal return either carries a terminal record, or happens with that reading
exactly equal to the deadline, in which case the result may be `None` or a
non-terminal record. -/
theorem wait_outcome_at_deadline :
    (∀ (env : JobPollEnv) (interval timeout start fuel : Nat) (out : JobWait)
      (c k : Nat),
      wait_for_job_done env interval timeout start fuel = some (out, c, k) →
      (start + timeout < c →
        out = JobWait.timeoutExc timeout
          (if k = 0 then none else some (env.resp (k - 1)))) ∧
      (∀ r, out = JobWait.ret r →
        c ≤ start + timeout ∧
        ((∃ rec, r = some rec ∧ isTerminal rec.status = true) ∨
          c = start + timeout))) ∧
    (∀ (benv : BatchPollEnv) (interval timeout start fuel : Nat) (wj : Bool)
      (out : BatchWait) (c kb kj : Nat) (ids : List String),
      wait_for_batch_done benv interval timeout start fuel wj =
        some (out, c, kb, kj, ids) →
      ∃ cb res,
        waitBatchLoop benv interval (start + timeout) fuel 0 start none =
          some (cb, res, kb) ∧
        (start + timeout < cb →
          out = BatchWait.timeoutExc timeout res ∧ (res = none ↔ kb = 0)) ∧
        (∀ r, out = BatchWait.ret r →
          (∃ rec, r = some rec ∧ isTerminal rec.status = true) ∨
            cb = start + timeout)) := by
  constructor
  · intro env interval timeout start fuel out c k h
    exact wait_job_outcome_at_deadline env interval timeout start fuel out c
      k h
  · intro benv interval timeout start fuel wj out c kb kj ids h
    cases hl : waitBatchLoop benv interval (start + timeout) fuel 0 start
        none with
    | none =>
      simp only [wait_for_batch_done, hl] at h
      exact Option.noConfusion h
    | some v =>
      obtain ⟨cl, rl, kl⟩ := v
      simp only [wait_for_batch_done, hl] at h
      by_cases hc : start + timeout < cl
      · rw [if_pos hc] at h
        simp only [Option.some.injEq, Prod.mk.injEq] at h
        obtain ⟨ho, _, hkb, _, _⟩ := h
        subst hkb
        refine ⟨cl, rl, rfl, fun _ => ⟨ho.symm, ?_⟩, ?_⟩
        · have hlast := waitBatchLoop_last benv interval (start + timeout)
            fuel 0 start none cl rl kl hl (by simp)
          rw [hlast]
          by_cases hk : kl = 0 <;> simp [hk]
        · intro r hr
          rw [← ho] at hr
          exact BatchWait.noConfusion hr
      · rw [if_neg hc] at h
        have hterm := waitBatchLoop_exit benv interval (start + timeout)
          fuel 0 start none cl rl kl hl
        cases wj with
        | false =>
          rw [if_neg (by simp)] at h
          simp only [Option.some.injEq, Prod.mk.injEq] at h
          obtain ⟨ho, _, hkb, _, _⟩ := h
          subst hkb
          refine ⟨cl, rl, rfl, fun hlt => absurd hlt hc, ?_⟩
          intro r hr
          rw [← ho] at hr
          injection hr with hr'
          subst hr'
          rcases hterm with ht | hge
          · exact Or.inl ht
          · exact Or.inr (by omega)
        | true =>
          rw [if_pos rfl] at h
          cases rl with
          | none =>
            simp only [Option.some.injEq, Prod.mk.injEq] at h
            obtain ⟨ho, _, hkb, _, _⟩ := h
            subst hkb
            refine ⟨cl, none, rfl, fun hlt => absurd hlt hc, ?_⟩
            intro r hr
            rw [← ho] at hr
            exact BatchWait.noConfusion hr
          | some rec =>
            cases hjl : waitJobsLoop benv interval timeout fuel rec.jobs 0
                cl with
            | none =>
              simp only [hjl] at h
              exact Option.noConfusion h
            | some v2 =>
              obtain ⟨c2, kj2, ids2, exc2⟩ := v2
              cases exc2 with
              | some p =>
                obtain ⟨t0, l0⟩ := p
                simp only [hjl, Option.some.injEq, Prod.mk.injEq] at h
                obtain ⟨ho, _, hkb, _, _⟩ := h
                subst hkb
                refine ⟨cl, some rec, rfl, fun hlt => absurd hlt hc, ?_⟩
                intro r hr
                rw [← ho] at hr
                exact BatchWait.noConfusion hr
              | none =>
                simp only [hjl, Option.some.injEq, Prod.mk.injEq] at h
                obtain ⟨ho, _, hkb, _, _⟩ := h
                subst hkb
                refine ⟨cl, some rec, rfl, fun hlt => absurd hlt hc, ?_⟩
                intro r hr
                rw [← ho] at hr
                injection hr with hr'
                subst hr'
                rcases hterm with ht | hge
                · exact Or.inl ht
                · exact Or.inr (by omega)

/-- Witness for `wait_outcome_at_deadline`: a run that overshoots the
deadline while only ever fetching non-terminal records. -/
theorem wait_outcome_at_deadline_witness :
    wait_for_job_done envSlowProcessing 1 5 0 2 =
      some (JobWait.timeoutExc 5 (some ⟨"processing"⟩), 11, 1) ∧
    ((0 + 5 < 11 →
      JobWait.timeoutExc 5 (some ⟨"processing"⟩) =
        JobWait.timeoutExc 5
          (if (1 : Nat) = 0 then none
            else some (envSlowProcessing.resp (1 - 1)))) ∧
      (∀ r, JobWait.timeoutExc 5 (some ⟨"processing"⟩) = JobWait.ret r →
        11 ≤ 0 + 5 ∧
        ((∃ rec, r = some rec ∧ isTerminal rec.status = true) ∨
          11 = 0 + 5))) :=
  ⟨by decide,
    wait_outcome_at_deadline.1 envSlowProcessing 1 5 0 2
      (JobWait.timeoutExc 5 (some ⟨"processing"⟩)) 11 1 (by decide)⟩

/-- C1 counterexample: with the clock hitting the deadline exactly, the code
returns a non-terminal record normally, while the claim says every normal
return carries a `done`/`error` record. -/
theorem wait_job_nonterminal_return_cex :
    wait_for_job_done envProcessing 1 2 0 5 =
      some (JobWait.ret (some ⟨"processing"⟩), 2, 1) ∧
    isTerminal "processing" = false := by
  constructor
  · decide
  · decide

/-! ## Claim C2 -/

/-- C2 (amended): when the first terminal record appears at fetch i and the
clock is still below the deadline at the i-th loop check, the wait performs
exactly i + 1 fetches - no further job-result request and no further sleep -
and returns that record normally, unless the clock after that fetch reads
strictly past the deadline, in which case it raises `TimeoutException`
carrying that terminal record instead. -/
theorem wait_job_first_terminal_stop (env : JobPollEnv)
    (interval timeout start fuel i : Nat)
    (hterm : isTerminal (env.resp i).status = true)
    (hpre : ∀ j, j < i → isTerminal (env.resp j).status = false)
    (hclock : clockAt env interval start i < start + timeout)
    (hfuel : i < fuel) :
    wait_for_job_done env interval timeout start fuel =
      some
        ((if start + timeout < clockAt env interval start i + env.fetchDur i
          then JobWait.timeoutExc timeout (some (env.resp i))
          else JobWait.ret (some (env.resp i))),
          clockAt env interval start i + env.fetchDur i, i + 1) := by
  have hrun := waitJobLoop_run env interval start (start + timeout) i hterm
    hpre hclock fuel 0 none (Nat.zero_le i) (by omega)
  have h0 : clockAt env interval start 0 = start := rfl
  rw [h0] at hrun
  simp only [wait_for_job_done, hrun]
  by_cases hc :
      start + timeout < clockAt env interval start i + env.fetchDur i
  · rw [if_pos hc, if_pos hc]
  · rw [if_neg hc, if_neg hc]

/-- Witness for `wait_job_first_terminal_stop`: first fetch terminal, within
the deadline; the record is returned after exactly one fetch. -/
theorem wait_job_first_terminal_stop_witness :
    isTerminal (envFastDone.resp 0).status = true ∧
    clockAt envFastDone 1 0 0 < 0 + 5 ∧
    wait_for_job_done envFastDone 1 5 0 1 =
      some
        ((if 0 + 5 < clockAt envFastDone 1 0 0 + envFastDone.fetchDur 0
          then JobWait.timeoutExc 5 (some (envFastDone.resp 0))
          else JobWait.ret (some (envFastDone.resp 0))),
          clockAt envFastDone 1 0 0 + envFastDone.fetchDur 0, 0 + 1) :=
  ⟨by decide, by decide,
    wait_job_first_terminal_stop envFastDone 1 5 0 1 0 (by decide)
      (fun j hj => absurd hj (Nat.not_lt_zero j)) (by decide) (by decide)⟩

/-- C2 counterexample: the very first fetch observes a terminal record, yet
because that fetch ends strictly past the deadline the call raises
`TimeoutException` instead of returning the record normally. -/
theorem wait_job_terminal_raises_cex :
    isTerminal (envSlowDone.resp 0).status = true ∧
    wait_for_job_done envSlowDone 1 5 0 2 =
      some (JobWait.timeoutExc 5 (some ⟨STATUS_DONE⟩), 6, 1) := by
  constructor
  · decide
  · decide

/-! ## Lemmas about the batch wait -/

/-- `wait_for_job_done` only ever raises a `TimeoutException` that carries the
configured timeout. -/
theorem wait_job_timeoutExc_inv (env : JobPollEnv)
    (interval timeout start fuel t : Nat) (l : Option JobRecord) (c k : Nat)
    (h : wait_for_job_done env interval timeout start fuel =
      some (JobWait.timeoutExc t l, c, k)) : t = timeout := by
  cases hl : waitJobLoop env interval (start + timeout) fuel 0 start none with
  | none =>
    simp only [wait_for_job_done, hl] at h
    exact Option.noConfusion h
  | some v =>
    obtain ⟨cl, rl, kl⟩ := v
    simp only [wait_for_job_done, hl] at h
    by_cases hc : start + timeout < cl
    · rw [if_pos hc] at h
      simp only [Option.some.injEq, Prod.mk.injEq] at h
      obtain ⟨ho, _, _⟩ := h
      injection ho with h1 _
      exact h1.symm
    · rw [if_neg hc] at h
      simp only [Option.some.injEq, Prod.mk.injEq] at h
      exact JobWait.noConfusion h.1

/-- Characterisation of the child loop: the ids waited on are a prefix of the
entries in order; they cover every entry when no child timed out; and a
propagated timeout carries the full configured timeout and is the outcome of
an actual `wait_for_job_done` run of the last child processed. -/
theorem waitJobsLoop_spec (benv : BatchPollEnv) (interval timeout fuel : Nat) :
    ∀ jobs i clock c2 kj ids exc,
      waitJobsLoop benv interval timeout fuel jobs i clock =
        some (c2, kj, ids, exc) →
      ids = (jobs.take ids.length).map JobEntry.job_ksuid ∧
      ids.length ≤ jobs.length ∧
      (exc = none → ids.length = jobs.length) ∧
      (∀ t last, exc = some (t, last) →
        t = timeout ∧ 1 ≤ ids.length ∧
        ∃ cs ce ke,
          wait_for_job_done (benv.jobEnv (i + ids.length - 1)) interval
              timeout cs fuel =
            some (JobWait.timeoutExc timeout last, ce, ke)) := by
  intro jobs
  induction jobs with
  | nil =>
    intro i clock c2 kj ids exc h
    simp only [waitJobsLoop, Option.some.injEq, Prod.mk.injEq] at h
    obtain ⟨_, _, hids, hexc⟩ := h
    subst hids
    subst hexc
    refine ⟨by simp, by simp, fun _ => rfl, ?_⟩
    intro t last hx
    exact Option.noConfusion hx
  | cons job rest ih =>
    intro i clock c2 kj ids exc h
    cases hw : wait_for_job_done (benv.jobEnv i) interval timeout clock
        fuel with
    | none =>
      simp only [waitJobsLoop, hw] at h
      exact Option.noConfusion h
    | some w =>
      obtain ⟨outw, cw, kw⟩ := w
      cases outw with
      | timeoutExc t0 l0 =>
        simp only [waitJobsLoop, hw, Option.some.injEq, Prod.mk.injEq] at h
        obtain ⟨_, _, hids, hexc⟩ := h
        subst hids
        have ht0 : t0 = timeout :=
          wait_job_timeoutExc_inv (benv.jobEnv i) interval timeout clock
            fuel t0 l0 cw kw hw
        subst ht0
        subst hexc
        refine ⟨by simp, by simp, ?_, ?_⟩
        · intro hx
          exact Option.noConfusion hx
        · intro t last hx
          injection hx with hx'
          injection hx' with ht hl
          subst ht
          subst hl
          refine ⟨rfl, by simp, ?_⟩
          have hidx : i + ([job.job_ksuid] : List String).length - 1 = i := by
            simp
          rw [hidx]
          exact ⟨clock, cw, kw, hw⟩
      | ret r0 =>
        simp only [waitJobsLoop, hw] at h
        cases hrest : waitJobsLoop benv interval timeout fuel rest (i + 1)
            cw with
        | none =>
          simp only [hrest] at h
          exact Option.noConfusion h
        | some v2 =>
          obtain ⟨c3, k2, ids2, exc2⟩ := v2
          simp only [hrest, Option.some.injEq, Prod.mk.injEq] at h
          obtain ⟨_, _, hids, hexc⟩ := h
          subst hids
          subst hexc
          obtain ⟨ih1, ih2, ih3, ih4⟩ := ih (i + 1) cw c3 k2 ids2 exc2 hrest
          refine ⟨?_, ?_, ?_, ?_⟩
          · rw [List.length_cons, List.take_succ_cons, List.map_cons, ← ih1]
          · simp only [List.length_cons]
            omega
          · intro hx
            have hlen := ih3 hx
            simp only [List.length_cons, hlen]
          · intro t last hx
            obtain ⟨ht, hlen, cs, ce, ke, hwj⟩ := ih4 t last hx
            refine ⟨ht, by simp, ?_⟩
            have hidx : i + (job.job_ksuid :: ids2).length - 1 =
                i + 1 + ids2.length - 1 := by
              simp only [List.length_cons]
              omega
            rw [hidx]
            exact ⟨cs, ce, ke, hwj⟩

/-! ## Claim C3 -/

/-- C3: when the batch polling loop of `wait_for_batch_done(_, wait_jobs=True)`
has delivered a record within the deadline, the child ids waited on are an
in-order prefix of the batch record's `jobs` list; a normal return means one
`wait_for_job_done` per entry was performed; and a propagated child timeout
carries the full configured timeout (fresh per-child deadline, not shared
with the batch's elapsed time), comes from an actual `wait_for_job_done`
run of the last child processed, and the remaining entries are not waited
on. -/
theorem wait_batch_children_order (benv : BatchPollEnv)
    (interval timeout start fuel cb kb : Nat) (rec : BatchRecord)
    (out : BatchWait) (c kb2 kj : Nat) (ids : List String)
    (hloop : waitBatchLoop benv interval (start + timeout) fuel 0 start none =
      some (cb, some rec, kb))
    (hin : cb ≤ start + timeout)
    (hrun : wait_for_batch_done benv interval timeout start fuel true =
      some (out, c, kb2, kj, ids)) :
    ids = (rec.jobs.take ids.length).map JobEntry.job_ksuid ∧
    ids.length ≤ rec.jobs.length ∧
    (∀ r, out = BatchWait.ret r →
      r = some rec ∧ ids.length = rec.jobs.length) ∧
    (∀ t last, out = BatchWait.jobTimeoutExc t last →
      t = timeout ∧ 1 ≤ ids.length ∧
      ∃ cs ce ke,
        wait_for_job_done (benv.jobEnv (ids.length - 1)) interval timeout cs
            fuel =
          some (JobWait.timeoutExc timeout last, ce, ke)) := by
  simp only [wait_for_batch_done, hloop] at hrun
  rw [if_neg (by omega)] at hrun
  rw [if_pos trivial] at hrun
  cases hjl : waitJobsLoop benv interval timeout fuel rec.jobs 0 cb with
  | none =>
    simp only [hjl] at hrun
    exact Option.noConfusion hrun
  | some v =>
    obtain ⟨c2, kj2, ids2, exc2⟩ := v
    obtain ⟨h1, h2, h3, h4⟩ :=
      waitJobsLoop_spec benv interval timeout fuel rec.jobs 0 cb c2 kj2 ids2
        exc2 hjl
    cases exc2 with
    | some p =>
      obtain ⟨t0, l0⟩ := p
      simp only [hjl, Option.some.injEq, Prod.mk.injEq] at hrun
      obtain ⟨ho, _, _, _, hids⟩ := hrun
      subst hids
      refine ⟨h1, h2, ?_, ?_⟩
      · intro r hr
        rw [← ho] at hr
        exact BatchWait.noConfusion hr
      · intro t last hx
        rw [← ho] at hx
        injection hx with ht hl
        subst ht
        subst hl
        obtain ⟨ht0, hlen, cs, ce, ke, hwj⟩ := h4 t0 l0 rfl
        subst ht0
        refine ⟨rfl, hlen, cs, ce, ke, ?_⟩
        have hidx : ids2.length - 1 = 0 + ids2.length - 1 := by omega
        rw [hidx]
        exact hwj
    | none =>
      simp only [hjl, Option.some.injEq, Prod.mk.injEq] at hrun
      obtain ⟨ho, _, _, _, hids⟩ := hrun
      subst hids
      refine ⟨h1, h2, ?_, ?_⟩
      · intro r hr
        rw [← ho] at hr
        injection hr with hr'
        exact ⟨hr'.symm, h3 rfl⟩
      · intro t last hx
        rw [← ho] at hx
        exact BatchWait.noConfusion hx

/-- Witness for `wait_batch_children_order`: a batch that is terminal at once
with children `a` then `b`; waiting on `a` times out, the propagated
exception carries the full configured timeout, and `b` is never waited on. -/
theorem wait_batch_children_order_witness :
    waitBatchLoop envBatchChildStuck 1 (0 + 5) 3 0 0 none =
      some (0,
        some ⟨STATUS_DONE, [⟨"a", "processing"⟩, ⟨"b", "waiting"⟩]⟩, 1) ∧
    (0 : Nat) ≤ 0 + 5 ∧
    wait_for_batch_done envBatchChildStuck 1 5 0 3 true =
      some (BatchWait.jobTimeoutExc 5 (some ⟨"processing"⟩), 11, 1, 1,
        ["a"]) ∧
    (["a"] =
        (([⟨"a", "processing"⟩, ⟨"b", "waiting"⟩] :
            List JobEntry).take (["a"] : List String).length).map
          JobEntry.job_ksuid ∧
      (["a"] : List String).length ≤
        ([⟨"a", "processing"⟩, ⟨"b", "waiting"⟩] : List JobEntry).length ∧
      (∀ r, BatchWait.jobTimeoutExc 5 (some ⟨"processing"⟩) =
          BatchWait.ret r →
        r = some ⟨STATUS_DONE, [⟨"a", "processing"⟩, ⟨"b", "waiting"⟩]⟩ ∧
        (["a"] : List String).length =
          ([⟨"a", "processing"⟩, ⟨"b", "waiting"⟩] : List JobEntry).length) ∧
      (∀ t last, BatchWait.jobTimeoutExc 5 (some ⟨"processing"⟩) =
          BatchWait.jobTimeoutExc t last →
        t = 5 ∧ 1 ≤ (["a"] : List String).length ∧
        ∃ cs ce ke,
          wait_for_job_done
              (envBatchChildStuck.jobEnv ((["a"] : List String).length - 1))
              1 5 cs 3 =
            some (JobWait.timeoutExc 5 last, ce, ke))) :=
  ⟨by decide, by decide, by decide,
    wait_batch_children_order envBatchChildStuck 1 5 0 3 0 1
      ⟨STATUS_DONE, [⟨"a", "processing"⟩, ⟨"b", "waiting"⟩]⟩
      (BatchWait.jobTimeoutExc 5 (some ⟨"processing"⟩)) 11 1 1 ["a"]
      (by decide) (by decide) (by decide)⟩

/-! ## Claim C4 -/

/-- C4: `wait_for_batch_done(_, wait_jobs=False)` performs no child job-result
fetch and waits on no child id; its outcome is exactly the batch polling
loop's record - returned as soon as the batch is terminal within the
deadline, raised inside a `TimeoutException` otherwise - regardless of the
statuses its `jobs` array shows. -/
theorem wait_batch_no_child_polling (benv : BatchPollEnv)
    (interval timeout start fuel : Nat) (out : BatchWait) (c kb kj : Nat)
    (ids : List String)
    (h : wait_for_batch_done benv interval timeout start fuel false =
      some (out, c, kb, kj, ids)) :
    kj = 0 ∧ ids = [] ∧
    ∃ res, waitBatchLoop benv interval (start + timeout) fuel 0 start none =
        some (c, res, kb) ∧
      out = (if start + timeout < c then BatchWait.timeoutExc timeout res
        else BatchWait.ret res) := by
  cases hl : waitBatchLoop benv interval (start + timeout) fuel 0 start
      none with
  | none =>
    simp only [wait_for_batch_done, hl] at h
    exact Option.noConfusion h
  | some v =>
    obtain ⟨cl, rl, kl⟩ := v
    simp only [wait_for_batch_done, hl] at h
    by_cases hc : start + timeout < cl
    · rw [if_pos hc] at h
      simp only [Option.some.injEq, Prod.mk.injEq] at h
      obtain ⟨ho, hcc, hkb, hkj, hids⟩ := h
      subst hcc
      subst hkb
      subst hkj
      subst hids
      exact ⟨rfl, rfl, rl, rfl, by rw [if_pos hc, ← ho]⟩
    · rw [if_neg hc] at h
      rw [if_neg (by simp)] at h
      simp only [Option.some.injEq, Prod.mk.injEq] at h
      obtain ⟨ho, hcc, hkb, hkj, hids⟩ := h
      subst hcc
      subst hkb
      subst hkj
      subst hids
      exact ⟨rfl, rfl, rl, rfl, by rw [if_neg hc, ← ho]⟩

/-- Witness for `wait_batch_no_child_polling`: the batch is returned with its
child still listed as `processing`, zero child fetches, no child waited. -/
theorem wait_batch_no_child_polling_witness :
    wait_for_batch_done envBatchDemo 1 5 0 2 false =
      some (BatchWait.ret (some ⟨STATUS_DONE, [⟨"a", "processing"⟩]⟩),
        0, 1, 0, []) ∧
    ((0 : Nat) = 0 ∧ ([] : List String) = [] ∧
      ∃ res, waitBatchLoop envBatchDemo 1 (0 + 5) 2 0 0 none =
          some (0, res, 1) ∧
        BatchWait.ret (some ⟨STATUS_DONE, [⟨"a", "processing"⟩]⟩) =
          (if 0 + 5 < 0 then BatchWait.timeoutExc 5 res
            else BatchWait.ret res)) :=
  ⟨by decide,
    wait_batch_no_child_polling envBatchDemo 1 5 0 2
      (BatchWait.ret (some ⟨STATUS_DONE, [⟨"a", "processing"⟩]⟩)) 0 1 0 []
      (by decide)⟩

/-! ## Claim C9 -/

/-- C9: a normal return of `wait_for_batch_done(_, wait_jobs=True)` is exactly
the batch record fetched by the batch polling loop before any child was
waited on - the per-child results are discarded, the batch fetch count is
unchanged by the child phase - and concretely the returned record's `jobs`
array can still show a non-terminal child status even though that child's
own wait observed a terminal record. -/
theorem wait_batch_returns_prefetched_record :
    (∀ (benv : BatchPollEnv) (interval timeout start fuel : Nat)
      (r : Option BatchRecord) (c kb kj : Nat) (ids : List String),
      wait_for_batch_done benv interval timeout start fuel true =
        some (BatchWait.ret r, c, kb, kj, ids) →
      ∃ rec cb, r = some rec ∧
        waitBatchLoop benv interval (start + timeout) fuel 0 start none =
          some (cb, some rec, kb)) ∧
    (wait_for_batch_done envBatchDemo 1 5 0 3 true =
      some (BatchWait.ret (some ⟨STATUS_DONE, [⟨"a", "processing"⟩]⟩),
        0, 1, 1, ["a"]) ∧
      wait_for_job_done (envBatchDemo.jobEnv 0) 1 5 0 3 =
        some (JobWait.ret (some ⟨STATUS_DONE⟩), 0, 1) ∧
      isTerminal "processing" = false) := by
  constructor
  · intro benv interval timeout start fuel r c kb kj ids h
    cases hl : waitBatchLoop benv interval (start + timeout) fuel 0 start
        none with
    | none =>
      simp only [wait_for_batch_done, hl] at h
      exact Option.noConfusion h
    | some v =>
      obtain ⟨cl, rl, kl⟩ := v
      simp only [wait_for_batch_done, hl] at h
      by_cases hc : start + timeout < cl
      · rw [if_pos hc] at h
        simp only [Option.some.injEq, Prod.mk.injEq] at h
        exact BatchWait.noConfusion h.1
      · rw [if_neg hc] at h
        rw [if_pos trivial] at h
        cases rl with
        | none =>
          simp only [Option.some.injEq, Prod.mk.injEq] at h
          exact BatchWait.noConfusion h.1
        | some rec =>
          cases hjl : waitJobsLoop benv interval timeout fuel rec.jobs 0
              cl with
          | none =>
            simp only [hjl] at h
            exact Option.noConfusion h
          | some v2 =>
            obtain ⟨c2, kj2, ids2, exc2⟩ := v2
            cases exc2 with
            | some p =>
              obtain ⟨t0, l0⟩ := p
              simp only [hjl, Option.some.injEq, Prod.mk.injEq] at h
              exact BatchWait.noConfusion h.1
            | none =>
              simp only [hjl, Option.some.injEq, Prod.mk.injEq] at h
              obtain ⟨ho, _, hkb, _, _⟩ := h
              injection ho with ho'
              exact ⟨rec, cl, ho'.symm, by rw [hkb]⟩
  · refine ⟨by decide, by decide, by decide⟩

/-- Witness for `wait_batch_returns_prefetched_record`: its universal half
applied to the concrete environment of its demonstration half. -/
theorem wait_batch_returns_prefetched_record_witness :
    ∃ rec cb,
      (some (⟨STATUS_DONE, [⟨"a", "processing"⟩]⟩ : BatchRecord) :
          Option BatchRecord) = some rec ∧
      waitBatchLoop envBatchDemo 1 (0 + 5) 3 0 0 none =
        some (cb, some rec, 1) :=
  wait_batch_returns_prefetched_record.1 envBatchDemo 1 5 0 3
    (some ⟨STATUS_DONE, [⟨"a", "processing"⟩]⟩) 0 1 1 ["a"] (by decide)

/-! ## Claim C7 -/

/-- With the signed-url request succeeding, a `send_job` run is exactly the
signed-url POST followed by the fail-fast upload discipline over the
populated slots in declaration order. -/
theorem send_job_eq (env : SendJobEnv) (base_url service : String)
    (params : Option (List (String × String)))
    (h200 : env.signedResp.status_code = 200) :
    send_job env base_url service params =
      (HttpAction.post (jobPostUrl base_url service) ::
          (uploadsUntilFail env (plannedUploads env params)).map
            HttpAction.put,
        match uploadsOutcome env (plannedUploads env params) with
        | Except.error e => Except.error e
        | Except.ok _ =>
            Except.ok ⟨env.signedResp.id, env.signedResp.status_url⟩) := by
  by_cases hf : paramsFlag params KEY_FACEMATCH = true <;>
  by_cases hx : paramsFlag params KEY_EXTRA = true <;>
  by_cases hd : env.uploadStatus (env.signedResp.urls "document") = 200 <;>
  by_cases hs : env.uploadStatus (env.signedResp.urls "selfie") = 200 <;>
  by_cases he :
    env.uploadStatus (env.signedResp.urls "extra_document") = 200 <;>
  simp [send_job, plannedUploads, uploadsUntilFail, uploadsOutcome,
    upload_file_with_path, validate_status_code, h200, hf, hx, hd, hs, he]

/-- C7: when the signed-url request succeeds, `send_job` performs one PUT per
populated slot in declaration order - document, selfie only under the
facematch flag, extra document only under the extra-document flag - stopping
right after the first upload whose status is not 200 and raising its
invalid-status exception (later slots are not uploaded, earlier uploads are
not rolled back); no job-result GET is ever issued; on all-200 uploads it
returns the signed-url response's id and status_url. -/
theorem send_job_upload_discipline (env : SendJobEnv)
    (base_url service : String) (params : Option (List (String × String)))
    (h200 : env.signedResp.status_code = 200) :
    (send_job env base_url service params).1 =
      HttpAction.post (jobPostUrl base_url service) ::
        (uploadsUntilFail env (plannedUploads env params)).map
          HttpAction.put ∧
    (send_job env base_url service params).2 =
      (match uploadsOutcome env (plannedUploads env params) with
        | Except.error e => Except.error e
        | Except.ok _ =>
            Except.ok ⟨env.signedResp.id, env.signedResp.status_url⟩) ∧
    (∀ u, HttpAction.get u ∉ (send_job env base_url service params).1) := by
  have he := send_job_eq env base_url service params h200
  refine ⟨by rw [he], by rw [he], ?_⟩
  intro u hu
  rw [he] at hu
  simp only [List.mem_cons, List.mem_map] at hu
  rcases hu with h1 | ⟨v, _, h2⟩
  · exact HttpAction.noConfusion h1
  · exact HttpAction.noConfusion h2

/-- Witness for `send_job_upload_discipline`: facematch flag set, selfie
upload fails with 401; the trace stops at the selfie PUT. -/
theorem send_job_upload_discipline_witness :
    envSendSelfie401.signedResp.status_code = 200 ∧
    ((send_job envSendSelfie401 "b" "rg" (some [("facematch", "true")])).1 =
      HttpAction.post (jobPostUrl "b" "rg") ::
        (uploadsUntilFail envSendSelfie401
            (plannedUploads envSendSelfie401
              (some [("facematch", "true")]))).map HttpAction.put ∧
    (send_job envSendSelfie401 "b" "rg" (some [("facematch", "true")])).2 =
      (match uploadsOutcome envSendSelfie401
          (plannedUploads envSendSelfie401 (some [("facematch", "true")]))
        with
        | Except.error e => Except.error e
        | Except.ok _ =>
            Except.ok ⟨envSendSelfie401.signedResp.id,
              envSendSelfie401.signedResp.status_url⟩) ∧
    (∀ u, HttpAction.get u ∉
      (send_job envSendSelfie401 "b" "rg"
          (some [("facematch", "true")])).1)) :=
  ⟨rfl,
    send_job_upload_discipline envSendSelfie401 "b" "rg"
      (some [("facematch", "true")]) rfl⟩

/-! ## Claim C8 -/

/-- C8 evaluation: with the facematch query parameter set to `"true"`,
`send_job_single_step` raises `TypeError` from `body.update(KEY_FACEMATCH,
facematch_file)` - two positional arguments - instead of sending a body
containing the facematch file; with no flags set, the body sent contains
exactly the metadata and data fields. -/
theorem send_job_single_step_flag_typeerror :
    send_job_single_step ⟨200, "id1", "su"⟩ "meta" "filedata" "fmdata"
        "exdata" (some [("facematch", "true")]) =
      Except.error PyError.typeErr ∧
    send_job_single_step ⟨200, "id1", "su"⟩ "meta" "filedata" "fmdata"
        "exdata" none =
      Except.ok ([("metadata", "meta"), ("data", "filedata")],
        ⟨"id1", "su"⟩) := by
  constructor
  · rfl
  · rfl

/-! ## Claim C10 -/

/-- C10: given at least one loop iteration of fuel, `get_jobs` performs
exactly one page fetch and raises `TypeError` from
`params.update("nextPageToken", token)` - `dict.update` accepts at most one
positional argument - so the accumulated jobs list is unreachable and the
function never returns normally. -/
theorem get_jobs_always_raises (page : Nat → PageResp) (fuel : Nat)
    (hfuel : 1 ≤ fuel) :
    get_jobs page fuel = some (1, Except.error PyError.typeErr) := by
  obtain ⟨fuel2, rfl⟩ : ∃ m, fuel = m + 1 := ⟨fuel - 1, by omega⟩
  rfl

/-- Witness for `get_jobs_always_raises` on a server that would happily keep
paginating. -/
theorem get_jobs_always_raises_witness :
    (1 : Nat) ≤ 1 ∧
    get_jobs (fun _ => ⟨["j1"], some "tok"⟩) 1 =
      some (1, Except.error PyError.typeErr) :=
  ⟨by decide, get_jobs_always_raises (fun _ => ⟨["j1"], some "tok"⟩) 1
    (by decide)⟩

end UltraOCR
